import Mathlib

/-!
Shallow embedding of the repodata fetch-and-cache engine from
`crates/rattler_repodata_gateway/src/fetch/mod.rs`.

The embedding models the pure decision logic of the module: URL
normalization, cache-state validation, variant probing, the cache-action
dispatch and the response handling of `fetch_repo_data`.  External
effects (the HTTP server, the filesystem, the `cache_control` parser and
the BLAKE2 digest) are modelled as explicit inputs carried in a `World`
record, so every function here is executable and deterministic.
-/

/-- Abstract stand-in for a BLAKE2s-256 digest value.  Only equality of
digests matters to the fetch logic, never the bytes of the digest. -/
abbrev Hash := Nat

/-- Cachability values of the external `cache_control` crate that the code
pattern-matches on (`Cachability::Public` versus anything else). -/
inductive Cachability where
  | public
  | priv
  | noCache
  | other
deriving DecidableEq

/-- Parsed `Cache-Control` header, as produced by `CacheControl::from_value`
of the external `cache_control` crate.  `maxAge` is a duration. -/
structure CacheControl where
  cachability : Option Cachability
  maxAge : Option Int
deriving DecidableEq

/-- Expiring value: a value paired with the timestamp at which it was last
checked (field `last_checked`).  Mirrors `Expiring<T>` of the cache module. -/
structure Expiring (α : Type) where
  value : α
  lastChecked : Int
deriving DecidableEq

/-- Modelled from the spec: `Expiring::value(expiration)` lives in the cache
module (`fetch/cache.rs`), which is not part of the provided sources.  Per the
spec, `(value, last_checked)` is considered fresh iff `now − last_checked ≤
TTL`; the accessor returns the value only while fresh. -/
def Expiring.freshValue {α : Type} (e : Expiring α) (ttl now : Int) : Option α :=
  if now - e.lastChecked ≤ ttl then some e.value else none

/-- Minimal model of `url::Url`: an opaque origin (scheme, authority, …)
together with the path component, which is all the fetch code inspects. -/
structure Url where
  origin : String
  path : String
deriving DecidableEq

/-- Model of `Url::join` for the way the fetch code uses it: the base is a
normalized subdirectory URL whose path ends in `/`, and the argument is a
plain relative file name, so joining appends the name to the path. -/
def Url.join (u : Url) (segment : String) : Url :=
  { u with path := u.path ++ segment }

/-- The subset of HTTP response headers kept in the cache state
(`CacheHeaders` of the cache module): `ETag`, `Last-Modified` and
`Cache-Control`, each optional. -/
structure CacheHeaders where
  etag : Option String
  lastModified : Option String
  cacheControl : Option String
deriving DecidableEq

/-- The repodata state record (`RepoDataState` of the cache module, fields per
the spec's data model): the URL that produced the file, the cached response
headers, the file size and mtime recorded when the state was written, an
optional BLAKE2s-256 hash of the file, and the expiring capability probes. -/
structure RepoDataState where
  url : Url
  cacheHeaders : CacheHeaders
  cacheLastModified : Int
  cacheSize : Nat
  blake2Hash : Option Hash
  hasZst : Option (Expiring Bool)
  hasBz2 : Option (Expiring Bool)
  hasJlap : Option (Expiring Bool)
deriving DecidableEq

/-- How to use the repodata cache (`CacheAction`). -/
inductive CacheAction where
  | cacheOrFetch
  | useCacheOnly
  | forceCacheOnly
  | noCache
deriving DecidableEq

/-- How the cache was used for a request (`CacheResult`). -/
inductive CacheResult where
  | cacheHit
  | cacheHitAfterFetch
  | cacheOutdated
  | cacheNotPresent
deriving DecidableEq

/-- Error kinds of `FetchRepoDataError` that the modelled logic can surface. -/
inductive FetchErr where
  | failedToAcquireLock
  | http
  | failedToDownload
  | failedToCreateTempFile
  | failedToPersistTempFile
  | failedToGetMetadata
  | failedToWriteCacheState
  | noCacheAvailable
  | cancelled
deriving DecidableEq

/-- The data of a successful `fetch_repo_data` call that the model tracks:
the new cache state and the cache result (the lock handle and the index path
are not modelled). -/
structure FetchSuccess where
  cacheState : RepoDataState
  cacheResult : CacheResult
deriving DecidableEq

/-- Outcome of a call: a successful return, a returned error, or a panic
(the `expect` on the previous cache state in the 304 branch). -/
inductive FetchOutcome where
  | ok (result : FetchSuccess)
  | err (e : FetchErr)
  | panic
deriving DecidableEq

/-- Result of `std::fs::metadata` on the index file: missing, another stat
error, or the metadata itself.  `mtime = none` models `metadata.modified()`
returning an error. -/
inductive MetadataResult where
  | notFound
  | otherErr
  | ok (size : Nat) (mtime : Option Int)
deriving DecidableEq

/-- Result of `RepoDataState::from_path` on the state file: the file is
missing, it fails to parse, or it yields a state record. -/
inductive StateLoad where
  | notFound
  | parseError
  | ok (state : RepoDataState)
deriving DecidableEq

/-- The on-disk cache pair for one cache key: the index file's metadata, the
result of computing its BLAKE2s-256 digest (`none` models an I/O error), and
what loading the state file yields. -/
structure Disk where
  indexMeta : MetadataResult
  indexDigest : Option Hash
  stateLoad : StateLoad
deriving DecidableEq

/-- The request `fetch_repo_data` builds: the chosen URL, the always-present
`Accept-Encoding: gzip`, and the conditional headers. -/
structure Request where
  url : Url
  acceptEncodingGzip : Bool
  ifNoneMatch : Option String
  ifModifiedSince : Option String
deriving DecidableEq

/-- Modelled from the spec: `CacheHeaders::add_to_request` lives in the cache
module (`fetch/cache.rs`), which is not part of the provided sources.  Per the
spec, when the previous cache headers hold an `ETag` it is attached as
`If-None-Match`, and when they hold a `Last-Modified` it is attached as
`If-Modified-Since`.  The `Accept-Encoding: gzip` header is always set by
`fetch_repo_data` itself. -/
def buildRequest (url : Url) (prevHeaders : Option CacheHeaders) : Request :=
  { url := url
    acceptEncodingGzip := true
    ifNoneMatch := prevHeaders.bind (·.etag)
    ifModifiedSince := prevHeaders.bind (·.lastModified) }

/-- What the streaming pipeline produces on success: the BLAKE2s-256 hash of
the decoded content, and the size and mtime the persisted index file has on
disk after the atomic rename (read back via `file.metadata()`). -/
structure DownloadOutcome where
  hash : Hash
  size : Nat
  mtime : Int
deriving DecidableEq

/-- The server's response to the GET, after `error_for_status`: a 304, a 2xx
whose body streams to a `DownloadOutcome` (`none` models a download error),
or an HTTP/status error. -/
inductive Response where
  | notModified
  | success (headers : CacheHeaders) (outcome : Option DownloadOutcome)
  | httpError
deriving DecidableEq

/-- All external inputs of one `fetch_repo_data` call: the disk, the current
time, the `cache_control` parser, the results the two HEAD probes would
yield, the server's behavior as a function of the request, and whether the
state-file write succeeds. -/
structure World where
  disk : Disk
  now : Int
  parseCacheControl : String → Option CacheControl
  zstProbe : Bool
  bz2Probe : Bool
  server : Request → Response
  stateWriteOk : Bool

/-- Model of `str::trim_end_matches('/')`: remove every trailing slash. -/
def trimEndSlashes (s : String) : String :=
  ⟨(s.data.reverse.dropWhile (· == '/')).reverse⟩

/-- Model of `str::ends_with('/')`. -/
def endsWithSlash (s : String) : Bool :=
  s.data.getLast? == some '/'

/-- `normalize_subdir_url`: trim all trailing slashes from the path, then
append exactly one (mod.rs lines 578-584). -/
def normalizeSubdirUrl (url : Url) : Url :=
  { url with path := trimEndSlashes url.path ++ "/" }

/-- A string ends in exactly one slash: it is some string that does not end
in a slash, followed by one slash. -/
def endsInExactlyOneSlash (s : String) : Prop :=
  ∃ l : List Char, s.data = l ++ ['/'] ∧ l.getLast? ≠ some '/'

/-- Model of `str::rsplit_once('/')`: split at the last slash, which is
excluded from both halves; `none` when the string holds no slash. -/
def rsplitOnceSlash (s : String) : Option (String × String) :=
  if s.data.any (· == '/') then
    some (⟨((s.data.reverse.dropWhile (· != '/')).drop 1).reverse⟩,
          ⟨(s.data.reverse.takeWhile (· != '/')).reverse⟩)
  else
    none

/-- The subdirectory URL recorded in a cache state: if the state's URL path
already ends in `/` it is used as is, otherwise the final path segment is
replaced by nothing and a trailing `/` is kept (mod.rs lines 646-654). -/
def cachedSubdirUrl (u : Url) : Url :=
  if endsWithSlash u.path then u
  else
    { u with path := ((rsplitOnceSlash u.path).getD ("", u.path)).1 ++ "/" }

/-- Classification of the on-disk cache (`ValidatedCacheState`). -/
inductive ValidatedCacheState where
  | invalidOrMissing
  | mismatched (state : RepoDataState)
  | outOfDate (state : RepoDataState)
  | upToDate (state : RepoDataState)
deriving DecidableEq

/-- `validate_cached_state` (mod.rs lines 609-750): stat the index file, load
the state record, check the URL binding, check the file-to-state binding
(recomputed hash when the state has one, otherwise the recorded size and
mtime comparison exactly as written in the source), compute the cache age,
and classify freshness from the stored `Cache-Control` header. -/
def validateCachedState (d : Disk) (subdirUrl : Url) (now : Int)
    (parseCC : String → Option CacheControl) : ValidatedCacheState :=
  match d.indexMeta with
  | .notFound => .invalidOrMissing
  | .otherErr => .invalidOrMissing
  | .ok size mtimeOpt =>
    match d.stateLoad with
    | .notFound => .invalidOrMissing
    | .parseError => .invalidOrMissing
    | .ok cacheState =>
      if cachedSubdirUrl cacheState.url ≠ subdirUrl then .invalidOrMissing
      else
        match mtimeOpt with
        | none => .mismatched cacheState
        | some cacheLastModified =>
          let bindingFails : Bool :=
            match cacheState.blake2Hash with
            | some cachedHash =>
              match d.indexDigest with
              | none => true
              | some hash => hash != cachedHash
            | none =>
              size != cacheState.cacheSize || some cacheLastModified != mtimeOpt
          if bindingFails then .mismatched cacheState
          else if now < cacheLastModified then .mismatched cacheState
          else
            let cacheAge := now - cacheLastModified
            match cacheState.cacheHeaders.cacheControl with
            | none => .outOfDate cacheState
            | some cacheControl =>
              match parseCC cacheControl with
              | none => .mismatched cacheState
              | some ⟨some .public, some duration⟩ =>
                if cacheAge > duration then .outOfDate cacheState
                else .upToDate cacheState
              | some _ => .outOfDate cacheState

/-- The condition under which the file-to-state binding check of
`validate_cached_state` passes, as the code actually computes it: when the
state has a recorded hash, the recomputed digest must equal it; otherwise the
file size must equal the recorded `cache_size` (the source's mtime
comparison at line 695 compares the file mtime with itself). -/
def bindingOk (size : Nat) (digest : Option Hash) (st : RepoDataState) : Prop :=
  match st.blake2Hash with
  | some cachedHash => digest = some cachedHash
  | none => size = st.cacheSize

/-- The capability-probe TTL: `chrono::Duration::days(14)`, in seconds. -/
def expirationTtl : Int := 14 * 24 * 60 * 60

/-- Availability of the `repodata.json` variants (`VariantAvailability`). -/
structure VariantAvailability where
  hasZst : Option (Expiring Bool)
  hasBz2 : Option (Expiring Bool)
deriving DecidableEq

/-- `check_variant_availability` (mod.rs lines 487-551): read fresh cached
values for the two variants; when the zst value is not fresh, probe it with a
HEAD request (`zstProbe` is the result the probe would yield) and record
`last_checked = now`; when the fresh zst value is not `true`, do the same for
bz2, and otherwise copy the cached `has_zst` field, exactly as the source
does in its final `else` branch (line 541). -/
def checkVariantAvailability (zstProbe bz2Probe : Bool) (now : Int)
    (cacheState : Option RepoDataState) : VariantAvailability :=
  let hasZst : Option Bool :=
    (cacheState.bind (·.hasZst)).bind (fun v => v.freshValue expirationTtl now)
  let hasBz2 : Option Bool :=
    (cacheState.bind (·.hasBz2)).bind (fun v => v.freshValue expirationTtl now)
  let zstResult : Option (Expiring Bool) :=
    match hasZst with
    | some _ => cacheState.bind (·.hasZst)
    | none => some ⟨zstProbe, now⟩
  let bz2Result : Option (Expiring Bool) :=
    if hasZst ≠ some true then
      match hasBz2 with
      | some _ => cacheState.bind (·.hasBz2)
      | none => some ⟨bz2Probe, now⟩
    else
      cacheState.bind (·.hasZst)
  { hasZst := zstResult, hasBz2 := bz2Result }

/-- Whether `check_variant_availability` issues the HEAD request for the bz2
variant: only when the fresh cached zst value is not `true` and there is no
fresh cached bz2 value (the `None` arm inside the first branch of the
`bz2_future`, mod.rs lines 523-537). -/
def bz2ProbeIssued (now : Int) (cacheState : Option RepoDataState) : Bool :=
  let hasZst : Option Bool :=
    (cacheState.bind (·.hasZst)).bind (fun v => v.freshValue expirationTtl now)
  let hasBz2 : Option Bool :=
    (cacheState.bind (·.hasBz2)).bind (fun v => v.freshValue expirationTtl now)
  (hasZst != some true) && hasBz2.isNone

/-- Selection of the variant to download (mod.rs lines 259-265): the zst URL
when `has_zst`, else the bz2 URL when `has_bz2`, else the plain file. -/
def selectRepoDataUrl (hasZst hasBz2 : Bool) (subdirUrl : Url) : Url :=
  if hasZst then subdirUrl.join "repodata.json.zst"
  else if hasBz2 then subdirUrl.join "repodata.json.bz2"
  else subdirUrl.join "repodata.json"

/-- The boolean zst availability `fetch_repo_data` computes from the probe
result (mod.rs lines 249-252): the value of the expiring entry, or `false`
when there is none. -/
def availHasZst (w : World) (cacheState : Option RepoDataState) : Bool :=
  (((checkVariantAvailability w.zstProbe w.bz2Probe w.now cacheState).hasZst).map
    (·.value)).getD false

/-- The boolean bz2 availability `fetch_repo_data` computes from the probe
result (mod.rs lines 253-256). -/
def availHasBz2 (w : World) (cacheState : Option RepoDataState) : Bool :=
  (((checkVariantAvailability w.zstProbe w.bz2Probe w.now cacheState).hasBz2).map
    (·.value)).getD false

/-- The URL `fetch_repo_data` downloads, as selected from the availability
booleans (mod.rs lines 259-265). -/
def fetchSelectedUrl (subdirUrl : Url) (cacheState : Option RepoDataState)
    (w : World) : Url :=
  selectRepoDataUrl (availHasZst w cacheState) (availHasBz2 w cacheState) subdirUrl

/-- The GET request `fetch_repo_data` sends (mod.rs lines 267-296): the
selected URL, `Accept-Encoding: gzip`, and the previous cache headers as
conditional headers when a previous state exists. -/
def fetchRequest (subdirUrl : Url) (cacheState : Option RepoDataState)
    (w : World) : Request :=
  buildRequest (fetchSelectedUrl subdirUrl cacheState w) (cacheState.map (·.cacheHeaders))

/-- The state written on the 304 path (mod.rs lines 303-308): the previous
state with `url`, `has_zst` and `has_bz2` overwritten and every other field
kept. -/
def state304 (subdirUrl : Url) (prev : RepoDataState) (w : World) : RepoDataState :=
  { prev with
    url := fetchSelectedUrl subdirUrl (some prev) w
    hasZst := (checkVariantAvailability w.zstProbe w.bz2Probe w.now (some prev)).hasZst
    hasBz2 := (checkVariantAvailability w.zstProbe w.bz2Probe w.now (some prev)).hasBz2 }

/-- The state written after a successful download (mod.rs lines 360-372):
the selected URL, the response's cache headers, the mtime and size read from
the persisted file, the hash computed while streaming, the refreshed probe
results, and the previous `has_jlap` copied over. -/
def newDownloadState (subdirUrl : Url) (cacheState : Option RepoDataState)
    (w : World) (respHeaders : CacheHeaders) (outcome : DownloadOutcome) : RepoDataState :=
  { url := fetchSelectedUrl subdirUrl cacheState w
    cacheHeaders := respHeaders
    cacheLastModified := outcome.mtime
    cacheSize := outcome.size
    blake2Hash := some outcome.hash
    hasZst := (checkVariantAvailability w.zstProbe w.bz2Probe w.now cacheState).hasZst
    hasBz2 := (checkVariantAvailability w.zstProbe w.bz2Probe w.now cacheState).hasBz2
    hasJlap := cacheState.bind (·.hasJlap) }

/-- The probe, request and response handling of `fetch_repo_data` after the
cache dispatch (mod.rs lines 241-392).  A 304 response unwraps the previous
state (`expect`, modelled as `panic` when there is none) and rewrites only
the state file; a 2xx response streams the body, atomically persists the
index file, reads its metadata back and writes the new state; the cache
result is `CacheOutdated` when a previous state existed, else
`CacheNotPresent`. -/
def fetchDownloadPhase (subdirUrl : Url) (cacheState : Option RepoDataState)
    (w : World) : FetchOutcome × Disk × Option Request :=
  match w.server (fetchRequest subdirUrl cacheState w) with
  | .notModified =>
    match cacheState with
    | none => (.panic, w.disk, some (fetchRequest subdirUrl none w))
    | some prev =>
      if w.stateWriteOk then
        (.ok ⟨state304 subdirUrl prev w, .cacheHitAfterFetch⟩,
         { w.disk with stateLoad := .ok (state304 subdirUrl prev w) },
         some (fetchRequest subdirUrl (some prev) w))
      else
        (.err .failedToWriteCacheState, w.disk,
         some (fetchRequest subdirUrl (some prev) w))
  | .httpError => (.err .http, w.disk, some (fetchRequest subdirUrl cacheState w))
  | .success _ none =>
    (.err .failedToDownload, w.disk, some (fetchRequest subdirUrl cacheState w))
  | .success respHeaders (some outcome) =>
    if w.stateWriteOk then
      (.ok ⟨newDownloadState subdirUrl cacheState w respHeaders outcome,
            if cacheState.isSome then .cacheOutdated else .cacheNotPresent⟩,
       { indexMeta := .ok outcome.size (some outcome.mtime)
         indexDigest := some outcome.hash
         stateLoad := .ok (newDownloadState subdirUrl cacheState w respHeaders outcome) },
       some (fetchRequest subdirUrl cacheState w))
    else
      (.err .failedToWriteCacheState,
       { indexMeta := .ok outcome.size (some outcome.mtime)
         indexDigest := some outcome.hash
         stateLoad := w.disk.stateLoad },
       some (fetchRequest subdirUrl cacheState w))

/-- The cache-action dispatch of `fetch_repo_data` (mod.rs lines 192-236),
with the match arms in source order: `UpToDate` (any action) and `OutOfDate`
under `ForceCacheOnly` return the cached state as a `CacheHit`; `OutOfDate`
under `UseCacheOnly`, and `Mismatched` or `InvalidOrMissing` under either
cache-only action, error with `NoCacheAvailable`; every other combination
continues into the download phase with the carried state. -/
def dispatchCache (validated : ValidatedCacheState) (action : CacheAction)
    (subdirUrl : Url) (w : World) : FetchOutcome × Disk × Option Request :=
  match validated, action with
  | .upToDate s, _ => (.ok ⟨s, .cacheHit⟩, w.disk, none)
  | .outOfDate s, .forceCacheOnly => (.ok ⟨s, .cacheHit⟩, w.disk, none)
  | .outOfDate _, .useCacheOnly => (.err .noCacheAvailable, w.disk, none)
  | .outOfDate s, _ => fetchDownloadPhase subdirUrl (some s) w
  | .mismatched _, .useCacheOnly => (.err .noCacheAvailable, w.disk, none)
  | .mismatched _, .forceCacheOnly => (.err .noCacheAvailable, w.disk, none)
  | .mismatched s, _ => fetchDownloadPhase subdirUrl (some s) w
  | .invalidOrMissing, .useCacheOnly => (.err .noCacheAvailable, w.disk, none)
  | .invalidOrMissing, .forceCacheOnly => (.err .noCacheAvailable, w.disk, none)
  | .invalidOrMissing, _ => fetchDownloadPhase subdirUrl none w

/-- `fetch_repo_data` (mod.rs lines 164-392), from after the lock
acquisition: normalize the subdirectory URL; unless the action is `NoCache`,
validate the cache and dispatch on the result; then probe, request and
handle the response.  The returned triple is the outcome, the resulting disk
contents, and the GET request sent, if any. -/
def fetch (subdirUrlRaw : Url) (action : CacheAction) (w : World) :
    FetchOutcome × Disk × Option Request :=
  if action = CacheAction.noCache then
    fetchDownloadPhase (normalizeSubdirUrl subdirUrlRaw) none w
  else
    dispatchCache
      (validateCachedState w.disk (normalizeSubdirUrl subdirUrlRaw) w.now w.parseCacheControl)
      action (normalizeSubdirUrl subdirUrlRaw) w

/-- Subdirectory URL used by the C2 example. -/
def c2Url : Url := ⟨"https://example.com", "/channel/linux-64/"⟩

/-- Cache state of the C2 example: no hash, recorded size 10 and recorded
mtime 999, no `Cache-Control` header. -/
def c2State : RepoDataState :=
  { url := c2Url
    cacheHeaders := ⟨none, none, none⟩
    cacheLastModified := 999
    cacheSize := 10
    blake2Hash := none
    hasZst := none
    hasBz2 := none
    hasJlap := none }

/-- Disk of the C2 example: the index file has size 10 (equal to the recorded
size) but mtime 100 (different from the recorded 999). -/
def c2Disk : Disk := ⟨.ok 10 (some 100), none, .ok c2State⟩

/-- Cache state for the C5 witness: matching URL, no hash, size 7,
`Cache-Control: public, max-age=10`. -/
def c5State : RepoDataState :=
  { url := ⟨"https://example.com", "/channel/noarch/"⟩
    cacheHeaders := ⟨none, none, some "public, max-age=10"⟩
    cacheLastModified := 0
    cacheSize := 7
    blake2Hash := none
    hasZst := none
    hasBz2 := none
    hasJlap := none }

/-- Cache-control parser for the C5 witness. -/
def c5Parse : String → Option CacheControl :=
  fun _ => some ⟨some .public, some 10⟩

/-- Cache state of the C3 example: both probe results are cached fresh at
time 0, zst available, bz2 not available. -/
def c3State : RepoDataState :=
  { url := ⟨"https://example.com", "/channel/linux-64/"⟩
    cacheHeaders := ⟨none, none, none⟩
    cacheLastModified := 0
    cacheSize := 0
    blake2Hash := none
    hasZst := some ⟨true, 0⟩
    hasBz2 := some ⟨false, 0⟩
    hasJlap := none }

/-- Previous cache state of the C1 example: recorded size 20, recorded mtime
50, an `ETag`, no hash. -/
def c1PrevState : RepoDataState :=
  { url := ⟨"https://example.com", "/channel/linux-64/repodata.json"⟩
    cacheHeaders := ⟨some "etag-1", none, none⟩
    cacheLastModified := 50
    cacheSize := 20
    blake2Hash := none
    hasZst := none
    hasBz2 := none
    hasJlap := none }

/-- World of the C1 example: the index file on disk has size 10 (so the state
record is `Mismatched`), and the server answers the conditional GET with
`304 Not Modified`. -/
def c1World : World :=
  { disk := ⟨.ok 10 (some 50), none, .ok c1PrevState⟩
    now := 100
    parseCacheControl := fun _ => none
    zstProbe := false
    bz2Probe := false
    server := fun _ => .notModified
    stateWriteOk := true }

/-- Requested subdirectory URL of the C1 example (normalization adds the
trailing slash). -/
def c1Url : Url := ⟨"https://example.com", "/channel/linux-64"⟩

/-- The state returned by the C1 example call. -/
def c1NewState : RepoDataState := state304 (normalizeSubdirUrl c1Url) c1PrevState c1World

/-- World of the C9 counterexample: empty disk, a server that answers
`304 Not Modified` to every request. -/
def c9World : World :=
  { disk := ⟨.notFound, none, .notFound⟩
    now := 0
    parseCacheControl := fun _ => none
    zstProbe := false
    bz2Probe := false
    server := fun _ => .notModified
    stateWriteOk := true }

/-- Subdirectory URL of the C9 examples. -/
def c9Url : Url := ⟨"https://example.com", "/channel/noarch/"⟩

/-- World for the C9 witness's no-304 part: the server never answers 304. -/
def c9NoHitWorld : World :=
  { disk := ⟨.notFound, none, .notFound⟩
    now := 0
    parseCacheControl := fun _ => none
    zstProbe := false
    bz2Probe := false
    server := fun _ => .success ⟨none, none, none⟩ (some ⟨5, 3, 7⟩)
    stateWriteOk := true }

/-- Subdirectory URL of the C6 witness. -/
def c6Url : Url := ⟨"https://example.com", "/channel/osx-64/"⟩

/-- World of the C6 witness: cold cache, plain download succeeding with hash
5, size 3 and mtime 7. -/
def c6World : World :=
  { disk := ⟨.notFound, none, .notFound⟩
    now := 0
    parseCacheControl := fun _ => none
    zstProbe := false
    bz2Probe := false
    server := fun _ => .success ⟨none, none, none⟩ (some ⟨5, 3, 7⟩)
    stateWriteOk := true }

/-- Previous cache state of the C7 witness. -/
def c7Prev : RepoDataState :=
  { url := ⟨"https://example.com", "/channel/win-64/repodata.json"⟩
    cacheHeaders := ⟨some "etag-7", some "lm-7", some "public, max-age=5"⟩
    cacheLastModified := 11
    cacheSize := 13
    blake2Hash := some 17
    hasZst := some ⟨false, 2⟩
    hasBz2 := some ⟨true, 2⟩
    hasJlap := some ⟨false, 2⟩ }

/-- Subdirectory URL of the C7 witness. -/
def c7Url : Url := ⟨"https://example.com", "/channel/win-64/"⟩

/-- World of the C7 witness: a server that answers 304 and a state write
that succeeds. -/
def c7World : World :=
  { disk := ⟨.ok 13 (some 11), some 17, .ok c7Prev⟩
    now := 3
    parseCacheControl := fun _ => none
    zstProbe := true
    bz2Probe := true
    server := fun _ => .notModified
    stateWriteOk := true }

/-- Subdirectory URL of the C10 witness. -/
def c10Url : Url := ⟨"https://example.com", "/channel/linux-aarch64"⟩

/-- World of the C10 witness: a valid, fresh cache pair exists on disk, yet
the call runs with `NoCache`; the plain download succeeds. -/
def c10World : World :=
  { disk := ⟨.ok 7 (some 0), some 23, .ok
      { url := ⟨"https://example.com", "/channel/linux-aarch64/"⟩
        cacheHeaders := ⟨some "etag-10", some "lm-10", some "public, max-age=100"⟩
        cacheLastModified := 0
        cacheSize := 7
        blake2Hash := some 23
        hasZst := none
        hasBz2 := none
        hasJlap := some ⟨true, 0⟩ }⟩
    now := 1
    parseCacheControl := fun _ => some ⟨some .public, some 100⟩
    zstProbe := false
    bz2Probe := false
    server := fun _ => .success ⟨some "etag-11", none, none⟩ (some ⟨29, 9, 1⟩)
    stateWriteOk := true }

theorem dropWhile_self_idem {α : Type} (p : α → Bool) (l : List α) :
    (l.dropWhile p).dropWhile p = l.dropWhile p := by
  induction l with
  | nil => rfl
  | cons a l ih =>
    by_cases h : p a
    · simpa [List.dropWhile_cons, h] using ih
    · simp [List.dropWhile_cons, h]

theorem head_dropWhile_ne {α : Type} (p : α → Bool) (l : List α) (a : α)
    (h : (l.dropWhile p).head? = some a) : p a = false := by
  have := List.head?_dropWhile_not p l
  rw [h] at this
  exact this

/-- C8: subdirectory URL normalization is idempotent, and the normalized
path ends in exactly one slash: all trailing slashes are stripped and then
exactly one is appended. -/
theorem normalizeSubdirUrl_idem_and_single_slash (u : Url) :
    normalizeSubdirUrl (normalizeSubdirUrl u) = normalizeSubdirUrl u ∧
    endsInExactlyOneSlash (normalizeSubdirUrl u).path := by
  constructor
  · show ({ u with path := trimEndSlashes (trimEndSlashes u.path ++ "/") ++ "/" } : Url) = _
    have hdata : (trimEndSlashes u.path ++ "/").data
        = (u.path.data.reverse.dropWhile (· == '/')).reverse ++ ['/'] := by
      simp [trimEndSlashes, String.data_append]
    have htrim : trimEndSlashes (trimEndSlashes u.path ++ "/") = trimEndSlashes u.path := by
      show (⟨((trimEndSlashes u.path ++ "/").data.reverse.dropWhile (· == '/')).reverse⟩ : String) = _
      rw [hdata]
      have : ((u.path.data.reverse.dropWhile (· == '/')).reverse ++ ['/']).reverse
          = '/' :: u.path.data.reverse.dropWhile (· == '/') := by
        simp
      rw [this]
      have : List.dropWhile (· == '/') ('/' :: u.path.data.reverse.dropWhile (· == '/'))
          = List.dropWhile (· == '/') (u.path.data.reverse.dropWhile (· == '/')) := by
        simp [List.dropWhile_cons]
      rw [this, dropWhile_self_idem]
      rfl
    simp [normalizeSubdirUrl, htrim]
  · refine ⟨(u.path.data.reverse.dropWhile (· == '/')).reverse, ?_, ?_⟩
    · show (trimEndSlashes u.path ++ "/").data = _
      simp [trimEndSlashes, String.data_append]
    · intro hlast
      rw [List.getLast?_reverse] at hlast
      have := head_dropWhile_ne (· == '/') u.path.data.reverse '/' hlast
      simp at this

/-- C2 (code observation): on an on-disk pair whose index file size equals the
recorded `cache_size` (both 10) while its mtime (100) differs from the
recorded `cache_last_modified` (999), with no stored hash and no
`Cache-Control` header, `validate_cached_state` does not return `Mismatched`:
the mtime comparison in the source compares the file mtime with itself, so
the state passes the binding check and the result is `OutOfDate`. -/
theorem validate_ignores_stored_mtime :
    validateCachedState c2Disk c2Url 200 (fun _ => none) = .outOfDate c2State ∧
    c2State.cacheSize = 10 ∧ c2State.cacheLastModified ≠ 100 := by
  refine ⟨rfl, rfl, by decide⟩

/-- C5: given that the index file exists with size `size` and mtime `mtime`,
the state record loads, the URL binding holds and the file-to-state binding
holds, `validate_cached_state` classifies freshness from the stored
`Cache-Control` header: a file mtime in the future yields `Mismatched`;
otherwise a missing header yields `OutOfDate`, an unparseable header yields
`Mismatched`, `public` with `max-age = d` yields `OutOfDate` when the age
exceeds `d` and `UpToDate` otherwise, and any other parsed shape yields
`OutOfDate`. -/
theorem validate_freshness_classification
    (size : Nat) (mtime now : Int) (digest : Option Hash) (st : RepoDataState)
    (subdirUrl : Url) (pcc : String → Option CacheControl)
    (hurl : cachedSubdirUrl st.url = subdirUrl)
    (hbind : bindingOk size digest st) :
    (now < mtime →
      validateCachedState ⟨.ok size (some mtime), digest, .ok st⟩ subdirUrl now pcc
        = .mismatched st) ∧
    (mtime ≤ now →
      (st.cacheHeaders.cacheControl = none →
        validateCachedState ⟨.ok size (some mtime), digest, .ok st⟩ subdirUrl now pcc
          = .outOfDate st) ∧
      (∀ cc, st.cacheHeaders.cacheControl = some cc →
        (pcc cc = none →
          validateCachedState ⟨.ok size (some mtime), digest, .ok st⟩ subdirUrl now pcc
            = .mismatched st) ∧
        (∀ duration, pcc cc = some ⟨some .public, some duration⟩ →
          (now - mtime > duration →
            validateCachedState ⟨.ok size (some mtime), digest, .ok st⟩ subdirUrl now pcc
              = .outOfDate st) ∧
          (now - mtime ≤ duration →
            validateCachedState ⟨.ok size (some mtime), digest, .ok st⟩ subdirUrl now pcc
              = .upToDate st)) ∧
        (∀ v, pcc cc = some v →
          v.cachability ≠ some Cachability.public ∨ v.maxAge = none →
          validateCachedState ⟨.ok size (some mtime), digest, .ok st⟩ subdirUrl now pcc
            = .outOfDate st))) := by
  have key : validateCachedState ⟨.ok size (some mtime), digest, .ok st⟩ subdirUrl now pcc
      = (if now < mtime then .mismatched st
         else
           match st.cacheHeaders.cacheControl with
           | none => .outOfDate st
           | some cacheControl =>
             match pcc cacheControl with
             | none => .mismatched st
             | some ⟨some .public, some duration⟩ =>
               if now - mtime > duration then .outOfDate st
               else .upToDate st
             | some _ => .outOfDate st) := by
    rcases hb : st.blake2Hash with _ | cachedHash
    · have hsz : size = st.cacheSize := by
        simp only [bindingOk, hb] at hbind
        exact hbind
      unfold validateCachedState
      simp [hurl, hb, hsz]
    · have hdg : digest = some cachedHash := by
        simp only [bindingOk, hb] at hbind
        exact hbind
      unfold validateCachedState
      simp [hurl, hb, hdg]
  constructor
  · intro hlt
    rw [key, if_pos hlt]
  · intro hge
    have hnlt : ¬ now < mtime := not_lt.mpr hge
    refine ⟨?_, ?_⟩
    · intro hcc
      rw [key, if_neg hnlt, hcc]
    · intro cc hcc
      refine ⟨?_, ?_, ?_⟩
      · intro hp
        rw [key, if_neg hnlt, hcc]
        simp [hp]
      · intro duration hp
        constructor
        · intro hage
          rw [key, if_neg hnlt, hcc]
          simp [hp, if_pos hage]
        · intro hage
          rw [key, if_neg hnlt, hcc]
          simp [hp, if_neg (not_lt.mpr hage)]
      · intro v hp hother
        rw [key, if_neg hnlt, hcc]
        obtain ⟨c, m⟩ := v
        rcases c with _ | cach
        · rcases m with _ | d <;> simp [hp]
        · cases cach with
          | public =>
            rcases m with _ | d
            · simp [hp]
            · exfalso
              rcases hother with hc | hm
              · exact hc rfl
              · simp at hm
          | priv => rcases m with _ | d <;> simp [hp]
          | noCache => rcases m with _ | d <;> simp [hp]
          | other => rcases m with _ | d <;> simp [hp]

/-- Witness for C5 at a concrete input: size 7, file mtime 0, now 5, header
`public, max-age=10`, so the cache is classified `UpToDate`. -/
theorem validate_freshness_classification_witness :
    validateCachedState ⟨.ok 7 (some 0), none, .ok c5State⟩
      ⟨"https://example.com", "/channel/noarch/"⟩ 5 c5Parse = .upToDate c5State := by
  have h := validate_freshness_classification 7 0 5 none c5State
    ⟨"https://example.com", "/channel/noarch/"⟩ c5Parse (by decide)
    (by unfold bindingOk; simp [c5State])
  exact ((h.2 (by decide)).2 "public, max-age=10" rfl).2.1 10 rfl |>.2 (by decide)

theorem downloadPhase_some_ne_panic (su : Url) (p : RepoDataState) (w : World) :
    (fetchDownloadPhase su (some p) w).1 ≠ FetchOutcome.panic := by
  unfold fetchDownloadPhase
  cases hsrv : w.server (fetchRequest su (some p) w) with
  | notModified => cases hw : w.stateWriteOk <;> simp [hw]
  | httpError => simp
  | success respHeaders outcome =>
    cases outcome with
    | none => simp
    | some o => cases hw : w.stateWriteOk <;> simp [hw]

theorem downloadPhase_none_panic_server (su : Url) (w : World)
    (h : (fetchDownloadPhase su none w).1 = FetchOutcome.panic) :
    w.server (fetchRequest su none w) = Response.notModified := by
  cases hsrv : w.server (fetchRequest su none w) with
  | notModified => rfl
  | httpError =>
    exfalso
    unfold fetchDownloadPhase at h
    rw [hsrv] at h
    simp at h
  | success respHeaders outcome =>
    exfalso
    unfold fetchDownloadPhase at h
    rw [hsrv] at h
    cases outcome with
    | none => simp at h
    | some o => cases hw : w.stateWriteOk <;> simp [hw] at h

/-- C3 (code observation): with a fresh cached `has_zst = true` and a fresh
cached `has_bz2 = false`, the prober issues no bz2 HEAD request, but the
`has_bz2` it returns is the cached `has_zst` entry, not the cached `has_bz2`
entry: the source's short-circuit branch copies `state.has_zst`. -/
theorem variant_probe_copies_zst_into_bz2 :
    (checkVariantAvailability false false 0 (some c3State)).hasBz2 = some ⟨true, 0⟩ ∧
    c3State.hasBz2 = some ⟨false, 0⟩ ∧
    (checkVariantAvailability false false 0 (some c3State)).hasBz2 ≠ c3State.hasBz2 ∧
    bz2ProbeIssued 0 (some c3State) = false := by
  refine ⟨by decide, by decide, by decide, by decide⟩

/-- C4: the cache-action dispatch follows the policy table: `UpToDate`
returns the cached state as a `CacheHit` under every action; `OutOfDate`
errors with `NoCacheAvailable` under `UseCacheOnly` and is a `CacheHit`
under `ForceCacheOnly`; `Mismatched` and `InvalidOrMissing` error with
`NoCacheAvailable` under both cache-only actions; every remaining
combination continues into the download phase with the carried state
(`some` state for `OutOfDate` and `Mismatched`, `none` for
`InvalidOrMissing`); and `fetch` reaches this dispatch on the validation
result for every action other than `NoCache`. -/
theorem dispatch_policy_table (s : RepoDataState) (w : World) (su : Url) :
    (∀ a, dispatchCache (.upToDate s) a su w = (.ok ⟨s, .cacheHit⟩, w.disk, none)) ∧
    dispatchCache (.outOfDate s) .useCacheOnly su w = (.err .noCacheAvailable, w.disk, none) ∧
    dispatchCache (.outOfDate s) .forceCacheOnly su w = (.ok ⟨s, .cacheHit⟩, w.disk, none) ∧
    dispatchCache (.outOfDate s) .cacheOrFetch su w = fetchDownloadPhase su (some s) w ∧
    dispatchCache (.mismatched s) .useCacheOnly su w = (.err .noCacheAvailable, w.disk, none) ∧
    dispatchCache (.mismatched s) .forceCacheOnly su w = (.err .noCacheAvailable, w.disk, none) ∧
    dispatchCache (.mismatched s) .cacheOrFetch su w = fetchDownloadPhase su (some s) w ∧
    dispatchCache .invalidOrMissing .useCacheOnly su w = (.err .noCacheAvailable, w.disk, none) ∧
    dispatchCache .invalidOrMissing .forceCacheOnly su w = (.err .noCacheAvailable, w.disk, none) ∧
    dispatchCache .invalidOrMissing .cacheOrFetch su w = fetchDownloadPhase su none w ∧
    (∀ u, fetch u .cacheOrFetch w
      = dispatchCache
          (validateCachedState w.disk (normalizeSubdirUrl u) w.now w.parseCacheControl)
          .cacheOrFetch (normalizeSubdirUrl u) w) ∧
    (∀ u, fetch u .useCacheOnly w
      = dispatchCache
          (validateCachedState w.disk (normalizeSubdirUrl u) w.now w.parseCacheControl)
          .useCacheOnly (normalizeSubdirUrl u) w) ∧
    (∀ u, fetch u .forceCacheOnly w
      = dispatchCache
          (validateCachedState w.disk (normalizeSubdirUrl u) w.now w.parseCacheControl)
          .forceCacheOnly (normalizeSubdirUrl u) w) := by
  refine ⟨fun a => by cases a <;> rfl, rfl, rfl, rfl, rfl, rfl, rfl, rfl, rfl, rfl,
    fun u => rfl, fun u => rfl, fun u => rfl⟩

/-- C1 (code observation): a call whose cache was classified `Mismatched`
(on-disk index size 10, recorded `cache_size` 20) and that receives a 304
returns successfully with the carried state, whose `cache_size` (20) does
not equal the size of the index file on disk (10), violating the spec's
success invariant on this path. -/
theorem success_state_mismatched_on_304 :
    (fetch c1Url .cacheOrFetch c1World).1
      = .ok ⟨c1NewState, .cacheHitAfterFetch⟩ ∧
    (fetch c1Url .cacheOrFetch c1World).2.1.indexMeta = .ok 10 (some 50) ∧
    c1NewState.cacheSize = 20 := by
  refine ⟨by decide, by decide, by decide⟩

/-- C6: the download URL is selected by fixed preference — zst when
`has_zst`, else bz2 when `has_bz2`, else the plain file, with a `None`
availability counting as `false` — and on every successful return (304 and
download paths alike) the new state's `url` field records the selected
URL. -/
theorem selected_url_recorded (su : Url) (cs : Option RepoDataState) (w : World)
    (r : FetchSuccess) (d : Disk) (rq : Option Request)
    (h : fetchDownloadPhase su cs w = (.ok r, d, rq)) :
    r.cacheState.url = fetchSelectedUrl su cs w ∧
    fetchSelectedUrl su cs w = selectRepoDataUrl (availHasZst w cs) (availHasBz2 w cs) su ∧
    (∀ (b : Bool) (u : Url), selectRepoDataUrl true b u = u.join "repodata.json.zst") ∧
    (∀ u : Url, selectRepoDataUrl false true u = u.join "repodata.json.bz2") ∧
    (∀ u : Url, selectRepoDataUrl false false u = u.join "repodata.json") ∧
    ((checkVariantAvailability w.zstProbe w.bz2Probe w.now cs).hasZst = none →
      availHasZst w cs = false) ∧
    (∀ e : Expiring Bool,
      (checkVariantAvailability w.zstProbe w.bz2Probe w.now cs).hasZst = some e →
      availHasZst w cs = e.value) ∧
    ((checkVariantAvailability w.zstProbe w.bz2Probe w.now cs).hasBz2 = none →
      availHasBz2 w cs = false) ∧
    (∀ e : Expiring Bool,
      (checkVariantAvailability w.zstProbe w.bz2Probe w.now cs).hasBz2 = some e →
      availHasBz2 w cs = e.value) := by
  refine ⟨?_, rfl, fun b u => rfl, fun u => rfl, fun u => rfl,
    fun hz => by simp [availHasZst, hz],
    fun e hz => by simp [availHasZst, hz],
    fun hb => by simp [availHasBz2, hb],
    fun e hb => by simp [availHasBz2, hb]⟩
  unfold fetchDownloadPhase at h
  cases hsrv : w.server (fetchRequest su cs w) <;> rw [hsrv] at h
  case notModified =>
    cases cs with
    | none => simp at h
    | some prev =>
      cases hw : w.stateWriteOk <;> simp [hw] at h
      obtain ⟨h1, h2, h3⟩ := h
      rw [← h1]
      rfl
  case httpError => simp at h
  case success respHeaders outcome =>
    cases outcome with
    | none => simp at h
    | some o =>
      cases hw : w.stateWriteOk <;> simp [hw] at h
      obtain ⟨h1, h2, h3⟩ := h
      rw [← h1]
      rfl

/-- Witness for C6 at a concrete input: a cold-cache plain download whose
returned state records the selected URL. -/
theorem selected_url_recorded_witness :
    (⟨newDownloadState c6Url none c6World ⟨none, none, none⟩ ⟨5, 3, 7⟩,
        CacheResult.cacheNotPresent⟩ : FetchSuccess).cacheState.url
      = fetchSelectedUrl c6Url none c6World :=
  (selected_url_recorded c6Url none c6World
    ⟨newDownloadState c6Url none c6World ⟨none, none, none⟩ ⟨5, 3, 7⟩, .cacheNotPresent⟩
    ⟨.ok 3 (some 7), some 5,
      .ok (newDownloadState c6Url none c6World ⟨none, none, none⟩ ⟨5, 3, 7⟩)⟩
    (some (fetchRequest c6Url none c6World))
    (by decide)).1

/-- C7: when the server answers 304 and the state write succeeds, the call
returns `CacheHitAfterFetch` with the previous state in which exactly
`url`, `has_zst` and `has_bz2` are overwritten — `blake2_hash`,
`cache_size`, `cache_last_modified`, `cache_headers` and `has_jlap` are
unchanged — and on disk the index file is untouched: only the state file
changes. -/
theorem not_modified_keeps_index (su : Url) (p : RepoDataState) (w : World)
    (hsrv : w.server (fetchRequest su (some p) w) = Response.notModified)
    (hwr : w.stateWriteOk = true) :
    fetchDownloadPhase su (some p) w
      = (.ok ⟨state304 su p w, .cacheHitAfterFetch⟩,
         { w.disk with stateLoad := .ok (state304 su p w) },
         some (fetchRequest su (some p) w)) ∧
    (state304 su p w).blake2Hash = p.blake2Hash ∧
    (state304 su p w).cacheSize = p.cacheSize ∧
    (state304 su p w).cacheLastModified = p.cacheLastModified ∧
    (state304 su p w).cacheHeaders = p.cacheHeaders ∧
    (state304 su p w).hasJlap = p.hasJlap ∧
    (state304 su p w).url = fetchSelectedUrl su (some p) w ∧
    (state304 su p w).hasZst
      = (checkVariantAvailability w.zstProbe w.bz2Probe w.now (some p)).hasZst ∧
    (state304 su p w).hasBz2
      = (checkVariantAvailability w.zstProbe w.bz2Probe w.now (some p)).hasBz2 ∧
    ({ w.disk with stateLoad := .ok (state304 su p w) } : Disk).indexMeta
      = w.disk.indexMeta ∧
    ({ w.disk with stateLoad := .ok (state304 su p w) } : Disk).indexDigest
      = w.disk.indexDigest := by
  refine ⟨?_, rfl, rfl, rfl, rfl, rfl, rfl, rfl, rfl, rfl, rfl⟩
  unfold fetchDownloadPhase
  rw [hsrv]
  simp [hwr]

/-- Witness for C7 at a concrete input: a 304 answer over a warm cache. -/
theorem not_modified_keeps_index_witness :
    fetchDownloadPhase c7Url (some c7Prev) c7World
      = (.ok ⟨state304 c7Url c7Prev c7World, .cacheHitAfterFetch⟩,
         { c7World.disk with stateLoad := .ok (state304 c7Url c7Prev c7World) },
         some (fetchRequest c7Url (some c7Prev) c7World)) ∧
    (state304 c7Url c7Prev c7World).blake2Hash = c7Prev.blake2Hash := by
  have h := not_modified_keeps_index c7Url c7Prev c7World (by decide) rfl
  exact ⟨h.1, h.2.1⟩

/-- C9 counterexample: a 304 received with no prior state does not surface
as a returned error — the call aborts with the `expect` panic, so the
outcome is `panic`, not `err`. -/
theorem not_modified_without_prev_not_error :
    (fetchDownloadPhase c9Url none c9World).1 = FetchOutcome.panic ∧
    (∀ e, (fetchDownloadPhase c9Url none c9World).1 ≠ FetchOutcome.err e) ∧
    (∀ r, (fetchDownloadPhase c9Url none c9World).1 ≠ FetchOutcome.ok r) := by
  refine ⟨rfl, fun e h => ?_, fun r h => ?_⟩
  · exact FetchOutcome.noConfusion h
  · exact FetchOutcome.noConfusion h

/-- C9 (amended): the 304 branch requires a previous state record.  With no
previous state a 304 makes the call abort via the `expect` panic (never a
normal return); with a previous state the branch never panics; a request
built without previous state carries no conditional headers; and under the
precondition that the server answers 304 only to requests carrying a
conditional header, `fetch` never reaches the panic. -/
theorem not_modified_requires_prev_state (su : Url) :
    (∀ w : World, w.server (fetchRequest su none w) = Response.notModified →
      fetchDownloadPhase su none w = (.panic, w.disk, some (fetchRequest su none w))) ∧
    (∀ (p : RepoDataState) (w : World),
      (fetchDownloadPhase su (some p) w).1 ≠ FetchOutcome.panic) ∧
    (∀ w : World, (fetchRequest su none w).ifNoneMatch = none ∧
      (fetchRequest su none w).ifModifiedSince = none) ∧
    (∀ (u : Url) (a : CacheAction) (w : World),
      (∀ rq : Request, rq.ifNoneMatch = none → rq.ifModifiedSince = none →
        w.server rq ≠ Response.notModified) →
      (fetch u a w).1 ≠ FetchOutcome.panic) := by
  refine ⟨?_, ?_, fun w => ⟨rfl, rfl⟩, ?_⟩
  · intro w hsrv
    unfold fetchDownloadPhase
    rw [hsrv]
  · exact fun p w => downloadPhase_some_ne_panic su p w
  · intro u a w hserv hpanic
    unfold fetch at hpanic
    by_cases ha : a = CacheAction.noCache
    · rw [if_pos ha] at hpanic
      exact hserv _ rfl rfl (downloadPhase_none_panic_server _ _ hpanic)
    · rw [if_neg ha] at hpanic
      cases hv : validateCachedState w.disk (normalizeSubdirUrl u) w.now w.parseCacheControl with
      | invalidOrMissing =>
        rw [hv] at hpanic
        cases a with
        | cacheOrFetch =>
          exact hserv _ rfl rfl (downloadPhase_none_panic_server _ _ hpanic)
        | useCacheOnly => simp [dispatchCache] at hpanic
        | forceCacheOnly => simp [dispatchCache] at hpanic
        | noCache => exact ha rfl
      | mismatched s =>
        rw [hv] at hpanic
        cases a with
        | cacheOrFetch => exact downloadPhase_some_ne_panic _ _ _ hpanic
        | useCacheOnly => simp [dispatchCache] at hpanic
        | forceCacheOnly => simp [dispatchCache] at hpanic
        | noCache => exact ha rfl
      | outOfDate s =>
        rw [hv] at hpanic
        cases a with
        | cacheOrFetch => exact downloadPhase_some_ne_panic _ _ _ hpanic
        | useCacheOnly => simp [dispatchCache] at hpanic
        | forceCacheOnly => simp [dispatchCache] at hpanic
        | noCache => exact ha rfl
      | upToDate s =>
        rw [hv] at hpanic
        cases a <;> simp [dispatchCache] at hpanic

/-- Witness for C9 at concrete inputs: the panic on a 304 with no prior
state, and the absence of panics when the server never answers 304 to an
unconditional request. -/
theorem not_modified_requires_prev_state_witness :
    fetchDownloadPhase c9Url none c9World
      = (.panic, c9World.disk, some (fetchRequest c9Url none c9World)) ∧
    (fetch c9Url .cacheOrFetch c9NoHitWorld).1 ≠ FetchOutcome.panic := by
  constructor
  · exact (not_modified_requires_prev_state c9Url).1 c9World rfl
  · exact (not_modified_requires_prev_state c9Url).2.2.2 c9Url .cacheOrFetch c9NoHitWorld
      (fun rq h1 h2 h => Response.noConfusion h)

/-- C10: a `NoCache` call that returns successfully skipped validation: the
GET carries no `If-None-Match` and no `If-Modified-Since` header, the cache
result is always `CacheNotPresent` even when a valid pair is on disk, and
the new state's `has_jlap` is `None`. -/
theorem noCache_fetch_properties (u : Url) (w : World) (r : FetchSuccess)
    (d : Disk) (rq : Option Request)
    (h : fetch u .noCache w = (.ok r, d, rq)) :
    r.cacheResult = CacheResult.cacheNotPresent ∧
    r.cacheState.hasJlap = none ∧
    rq = some (fetchRequest (normalizeSubdirUrl u) none w) ∧
    (fetchRequest (normalizeSubdirUrl u) none w).ifNoneMatch = none ∧
    (fetchRequest (normalizeSubdirUrl u) none w).ifModifiedSince = none := by
  have hh : fetchDownloadPhase (normalizeSubdirUrl u) none w = (.ok r, d, rq) := h
  unfold fetchDownloadPhase at hh
  cases hsrv : w.server (fetchRequest (normalizeSubdirUrl u) none w) <;> rw [hsrv] at hh
  case notModified => simp at hh
  case httpError => simp at hh
  case success respHeaders outcome =>
    cases outcome with
    | none => simp at hh
    | some o =>
      cases hw : w.stateWriteOk <;> simp [hw] at hh
      obtain ⟨h1, h2, h3⟩ := hh
      rw [← h1, ← h3]
      exact ⟨rfl, rfl, rfl, rfl, rfl⟩

/-- Witness for C10 at a concrete input: a `NoCache` call over a disk that
holds a valid fresh pair still downloads and reports `CacheNotPresent`. -/
theorem noCache_fetch_properties_witness :
    (⟨newDownloadState (normalizeSubdirUrl c10Url) none c10World
        ⟨some "etag-11", none, none⟩ ⟨29, 9, 1⟩,
      CacheResult.cacheNotPresent⟩ : FetchSuccess).cacheResult
        = CacheResult.cacheNotPresent ∧
    (⟨newDownloadState (normalizeSubdirUrl c10Url) none c10World
        ⟨some "etag-11", none, none⟩ ⟨29, 9, 1⟩,
      CacheResult.cacheNotPresent⟩ : FetchSuccess).cacheState.hasJlap = none := by
  have h := noCache_fetch_properties c10Url c10World
    ⟨newDownloadState (normalizeSubdirUrl c10Url) none c10World
        ⟨some "etag-11", none, none⟩ ⟨29, 9, 1⟩, .cacheNotPresent⟩
    ⟨.ok 9 (some 1), some 29,
      .ok (newDownloadState (normalizeSubdirUrl c10Url) none c10World
        ⟨some "etag-11", none, none⟩ ⟨29, 9, 1⟩)⟩
    (some (fetchRequest (normalizeSubdirUrl c10Url) none c10World))
    (by decide)
  exact ⟨h.1, h.2.1⟩
